import Mathlib

/-!
Shallow embedding of an SSE (Server-Sent Events) streaming client, taken
from its single Rust source file `src/lib.rs`.  Strings are modelled as
lists of characters; the HTTP transport is modelled as an oracle, a list of
connection outcomes consumed by each connection attempt; the open byte
stream is modelled as a list of read results (lines or a read failure),
with the empty list standing for end of stream (a zero-byte read).  The
iterator method `next` is modelled with explicit fuel for its unbounded
reconnect recursion, and it records, as part of its result, the sleeps it
performs and the headers of every connection attempt it makes.
-/

namespace EventSource

/-- Strings of the Rust source, modelled as lists of characters. -/
abbrev Str := List Char

/-- The `Event` struct: `id`, `event_type`, `data` (lib.rs lines 27-32). -/
structure Event where
  id : Option Str
  event_type : Option Str
  data : Str
deriving DecidableEq, Repr

/-- The `ParseResult` enum (lib.rs lines 34-37). -/
inductive ParseResult
  | Next
  | Dispatch
deriving DecidableEq, Repr

/-- `Event::new()` (lib.rs lines 132-140): all fields empty. -/
def Event.new : Event := ⟨none, none, []⟩

/-- `const DEFAULT_RETRY: u64 = 5000` (lib.rs line 15). -/
def DEFAULT_RETRY : Nat := 5000

/-- The session fields of `Client` that `parse_event_line` mutates:
`last_event_id` and `retry` (lib.rs lines 23-24). -/
structure Session where
  last_event_id : Option Str
  retry : Nat
deriving DecidableEq, Repr

/-- Embedding of `if line.ends_with('\n') { &line[0..line.len()-1] } else { line }`
(lib.rs line 59): drop one trailing newline character if present. -/
def stripNewline (l : Str) : Str :=
  if l.getLast? = some '\n' then l.dropLast else l

/-- Embedding of `line.find(':')` plus `line.split_at(pos)` plus `&v[1..]`
(lib.rs lines 63-66): the characters strictly before the first colon, and
the characters strictly after it; `none` when there is no colon. -/
def splitAtColon : Str → Option (Str × Str)
  | [] => none
  | c :: rest =>
    if c = ':' then some ([], rest)
    else (splitAtColon rest).map (fun p => (c :: p.1, p.2))

/-- Embedding of `if v.starts_with(' ') { &v[1..] } else { v }` (lib.rs line 67). -/
def dropLeadingSpace (v : Str) : Str :=
  if v.head? = some ' ' then v.tail else v

/-- The field/value split of lib.rs lines 63-71: split at the first colon,
drop one optional leading space from the value; with no colon the whole
line is the field name and the value is empty. -/
def fieldValue (l : Str) : Str × Str :=
  match splitAtColon l with
  | some (f, v) => (f, dropLeadingSpace v)
  | none => (l, [])

/-- Embedding of Rust `value.parse::<u64>()`: an optional leading plus
sign, then one or more decimal digits, value below 2^64; anything else
fails. -/
def parseU64 (s : Str) : Option Nat :=
  let d := if s.head? = some '+' then s.tail else s
  if d ≠ [] ∧ d.all Char.isDigit then
    let n := d.foldl (fun acc c => acc * 10 + (c.toNat - 48)) 0
    if n < 2 ^ 64 then some n else none
  else none

/-- Embedding of `Client::parse_event_line` (lib.rs lines 58-87).  Takes
the session fields and the in-progress event, returns their updated
values together with the `ParseResult`. -/
def parse_event_line (s : Session) (line : Str) (event : Event) :
    Session × Event × ParseResult :=
  let l := stripNewline line
  if l = [] then
    (s, event, ParseResult.Dispatch)
  else
    let fv := fieldValue l
    let field := fv.1
    let value := fv.2
    let se : Session × Event :=
      if field = "event".toList then
        (s, { event with event_type := some value })
      else if field = "data".toList then
        (s, { event with data := event.data ++ value ++ ['\n'] })
      else if field = "id".toList then
        ({ s with last_event_id := some value }, { event with id := some value })
      else if field = "retry".toList then
        match parseU64 value with
        | some n => ({ s with retry := n }, event)
        | none => (s, event)
      else
        (s, event)
    (se.1, se.2, ParseResult.Next)

/-- One result of `read_line` on the open stream: a line read (more than
zero bytes), or an I/O failure.  A stream is a list of these; the empty
list models end of stream (`read_line` returning `Ok(0)`). -/
inductive ReadItem
  | line (s : Str)
  | err
deriving DecidableEq, Repr

/-- Outcome of the `while read_line > 0` loop of lib.rs lines 118-124:
an event was dispatched (with the unread remainder of the stream), the
stream ended cleanly, or a read failed (with the remainder). -/
inductive LoopResult
  | dispatched (e : Event) (rest : List ReadItem)
  | eof
  | ioErr (rest : List ReadItem)
deriving DecidableEq, Repr

/-- The read loop of `Client::next` (lib.rs lines 118-124): read lines,
feed each to `parse_event_line`, stop on `Dispatch`, end of stream, or a
read error. -/
def readLoop : Session → Event → List ReadItem → Session × LoopResult
  | sess, _, [] => (sess, LoopResult.eof)
  | sess, _, ReadItem.err :: rest => (sess, LoopResult.ioErr rest)
  | sess, event, ReadItem.line l :: rest =>
    match parse_event_line sess l event with
    | (s', e', ParseResult.Dispatch) => (s', LoopResult.dispatched e' rest)
    | (s', e', ParseResult.Next) => readLoop s' e' rest

/-- The session and event state after feeding a list of lines, one by
one, through `parse_event_line` — the fold that the read loop performs
while no line dispatches. -/
def parseLinesSession : Session → Event → List Str → Session × Event
  | sess, ev, [] => (sess, ev)
  | sess, ev, l :: ls =>
    let p := parse_event_line sess l ev
    parseLinesSession p.1 p.2.1 ls

/-- The `Client` state that `next` reads and writes: the optional open
stream, `last_event_id`, and `retry` (lib.rs lines 19-25; the HTTP client
handle and the URL are constants of the session and are left out). -/
structure ClientSt where
  reader : Option (List ReadItem)
  last_event_id : Option Str
  retry : Nat
deriving DecidableEq, Repr

/-- Outcome of one connection attempt by the transport: a failure of the
transport itself, or a response with a status code and a body stream. -/
inductive ConnResult
  | transportError
  | response (status : Nat) (body : List ReadItem)
deriving DecidableEq, Repr

/-- The error taxonomy surfaced by `next`: an HTTP status error
(`Error::Http`), a read failure, or a transport failure. -/
inductive Error
  | http (status : Nat)
  | io
  | transport
deriving DecidableEq, Repr

/-- Result of one call to `next`: an event, an error, or fuel exhaustion
(standing for the unbounded reconnect recursion going past the fuel). -/
inductive NextOutcome
  | ok (e : Event)
  | error (e : Error)
  | fuelOut
deriving DecidableEq, Repr

/-- The header name of the `header!` macro invocation (lib.rs line 17). -/
def lastEventIDHeader : Str := "Last-Event-ID".toList

/-- Embedding of the header construction in `Client::next_request`
(lib.rs lines 50-56): a `Last-Event-ID` header is set exactly when
`last_event_id` is present. -/
def next_request_headers (last_event_id : Option Str) : List (Str × Str) :=
  match last_event_id with
  | some id => [(lastEventIDHeader, id)]
  | none => []

/-- Embedding of hyper's `StatusCode::is_success`: the 2xx class. -/
def is_success (status : Nat) : Bool := 200 ≤ status && status < 300

/-- The observable result of a call to `next`: its outcome, the client
state it leaves behind, the unconsumed connection oracle, the sleeps it
performed (in milliseconds, in order), and the request headers of each
connection attempt it made (in order). -/
structure NextResult where
  outcome : NextOutcome
  st : ClientSt
  world : List ConnResult
  sleeps : List Nat
  attempts : List (List (Str × Str))
deriving DecidableEq, Repr

/-- Embedding of `Client::next` (lib.rs lines 102-129), with fuel for the
reconnect recursion of line 128.  If there is no open stream, one
connection outcome is consumed from the oracle: a transport failure or a
non-success status is returned at once (`try_option!` / lib.rs lines
107-109), a success status installs the body as the open stream.  Then
the read loop runs; a dispatch returns the event, a read failure returns
an I/O error leaving the stream in place (`try_option!` returns early at
lib.rs line 118 without touching `self.reader`), and end of stream clears
the stream, sleeps for the current `retry`, and recurses. -/
def clientNext : Nat → ClientSt → List ConnResult → NextResult
  | 0, st, world => ⟨NextOutcome.fuelOut, st, world, [], []⟩
  | fuel + 1, st, world =>
    let conn : (List (List (Str × Str)) × List ReadItem × ClientSt × List ConnResult)
        ⊕ NextResult :=
      match st.reader with
      | some r => Sum.inl ([], r, st, world)
      | none =>
        match world with
        | [] => Sum.inr ⟨NextOutcome.fuelOut, st, [], [], []⟩
        | ConnResult.transportError :: world' =>
          Sum.inr ⟨NextOutcome.error Error.transport, st, world', [],
            [next_request_headers st.last_event_id]⟩
        | ConnResult.response status body :: world' =>
          if is_success status then
            Sum.inl ([next_request_headers st.last_event_id], body,
              { st with reader := some body }, world')
          else
            Sum.inr ⟨NextOutcome.error (Error.http status), st, world', [],
              [next_request_headers st.last_event_id]⟩
    match conn with
    | Sum.inr res => res
    | Sum.inl (att, r, st, world) =>
      match readLoop ⟨st.last_event_id, st.retry⟩ Event.new r with
      | (sess, LoopResult.dispatched e rest) =>
        ⟨NextOutcome.ok e, ⟨some rest, sess.last_event_id, sess.retry⟩, world, [], att⟩
      | (sess, LoopResult.ioErr rest) =>
        ⟨NextOutcome.error Error.io, ⟨some rest, sess.last_event_id, sess.retry⟩,
          world, [], att⟩
      | (sess, LoopResult.eof) =>
        let res := clientNext fuel ⟨none, sess.last_event_id, sess.retry⟩ world
        ⟨res.outcome, res.st, res.world, sess.retry :: res.sleeps,
          att ++ res.attempts⟩

/-- Embedding of Rust `str::lines()` for the `Display` rendering: split on
newline characters, drop the trailing empty piece produced by a final
newline, and strip one trailing carriage return from each piece. -/
def stripCR (l : Str) : Str :=
  if l.getLast? = some '\r' then l.dropLast else l

/-- Rust `str::lines()` on a character list. -/
def rustLines (s : Str) : List Str :=
  if s = [] then []
  else
    let parts := s.splitOn '\n'
    ((if s.getLast? = some '\n' then parts.dropLast else parts).map stripCR)

/-- Embedding of `impl fmt::Display for Event` (lib.rs lines 142-155):
an `id: ` line if present, an `event: ` line if present, then one
`data: ` line per line of the data payload. -/
def renderEvent (e : Event) : Str :=
  (match e.id with
   | some id => "id: ".toList ++ id ++ ['\n']
   | none => []) ++
  (match e.event_type with
   | some t => "event: ".toList ++ t ++ ['\n']
   | none => []) ++
  ((rustLines e.data).map (fun l => "data: ".toList ++ l ++ ['\n'])).flatten

/-! Helper lemmas about the line splitter. -/

theorem stripNewline_concat (xs : Str) : stripNewline (xs ++ ['\n']) = xs := by
  simp [stripNewline]

theorem stripNewline_keep (xs : Str) (h : xs.getLast? ≠ some '\n') :
    stripNewline xs = xs := by
  simp [stripNewline, h]

theorem splitAtColon_of_no_colon (l : Str) (h : ':' ∉ l) : splitAtColon l = none := by
  induction l with
  | nil => rfl
  | cons c rest ih =>
    rw [List.mem_cons, not_or] at h
    have hc : ¬c = ':' := fun e => h.1 e.symm
    simp [splitAtColon, hc, ih h.2]

theorem splitAtColon_first (f v : Str) (h : ':' ∉ f) :
    splitAtColon (f ++ ':' :: v) = some (f, v) := by
  induction f with
  | nil => simp [splitAtColon]
  | cons c rest ih =>
    rw [List.mem_cons, not_or] at h
    have hc : ¬c = ':' := fun e => h.1 e.symm
    simp [splitAtColon, hc, ih h.2]

theorem parse_data_line (sess : Session) (ev : Event) (v : Str) :
    parse_event_line sess ("data: ".toList ++ v ++ ['\n']) ev
      = (sess, { ev with data := ev.data ++ v ++ ['\n'] }, ParseResult.Next) := by
  have h1 : stripNewline ("data: ".toList ++ v ++ ['\n']) = "data: ".toList ++ v :=
    stripNewline_concat _
  have e1 : ("data: ".toList : Str) = "data".toList ++ [':', ' '] := by decide
  have h3 : fieldValue ("data: ".toList ++ v) = ("data".toList, v) := by
    rw [e1, List.append_assoc]
    have h4 := splitAtColon_first "data".toList (' ' :: v) (by decide)
    simp at h4
    simp [fieldValue, h4, dropLeadingSpace]
  have hne : ¬("data: ".toList ++ v : Str) = [] := by
    simp [e1]
  simp only [parse_event_line, h1, h3]
  simp [hne, show ("data".toList : Str) ≠ "event".toList from by decide]

theorem readLoop_data_lines (vs : List Str) (sess : Session) (ev : Event) :
    readLoop sess ev
      ((vs.map (fun v => ReadItem.line ("data: ".toList ++ v ++ ['\n'])))
        ++ [ReadItem.line ['\n']])
      = (sess, LoopResult.dispatched
          { ev with data := ev.data ++ (vs.map (fun v => v ++ ['\n'])).flatten } []) := by
  induction vs generalizing ev with
  | nil =>
    simp [readLoop, parse_event_line, stripNewline]
  | cons v vs ih =>
    simp only [List.map_cons, List.cons_append, readLoop, parse_data_line, List.append_eq]
    rw [ih]
    simp [List.append_assoc]

theorem parse_nonblank_next (sess : Session) (line : Str) (ev : Event)
    (h : ¬stripNewline line = []) :
    (parse_event_line sess line ev).2.2 = ParseResult.Next := by
  simp [parse_event_line, h]

theorem readLoop_all_nonblank (ls : List Str) (sess : Session) (ev : Event)
    (h : ∀ l ∈ ls, ¬stripNewline l = []) :
    readLoop sess ev (ls.map ReadItem.line)
      = ((parseLinesSession sess ev ls).1, LoopResult.eof) := by
  induction ls generalizing sess ev with
  | nil => simp [readLoop, parseLinesSession]
  | cons l ls ih =>
    have hl := h l (List.mem_cons_self l ls)
    rcases hp : parse_event_line sess l ev with ⟨s', e', pr⟩
    have hpr : pr = ParseResult.Next := by
      have hn := parse_nonblank_next sess l ev hl
      rw [hp] at hn
      exact hn
    subst hpr
    simp only [List.map_cons, readLoop, hp]
    rw [ih s' e' (fun x hx => h x (List.mem_cons_of_mem _ hx))]
    simp [parseLinesSession, hp]

theorem parse_last_event_id_eq (sess : Session) (line : Str) (ev : Event) :
    ((parse_event_line sess line ev).1).last_event_id =
      (if ¬stripNewline line = []
          ∧ (fieldValue (stripNewline line)).1 = "id".toList then
        some ((fieldValue (stripNewline line)).2)
      else sess.last_event_id) := by
  rcases hfv : fieldValue (stripNewline line) with ⟨f, v⟩
  by_cases h0 : stripNewline line = []
  · simp [parse_event_line, h0]
  · simp only [parse_event_line, hfv, h0, if_neg, not_false_iff, true_and]
    by_cases he : f = "event".toList
    · simp [he, show ¬("event".toList : Str) = "id".toList from by decide]
    · by_cases hd : f = "data".toList
      · simp [he, hd, show ¬("data".toList : Str) = "id".toList from by decide]
      · by_cases hi : f = "id".toList
        · simp [he, hd, hi]
        · by_cases hr : f = "retry".toList
          · rcases hp : parseU64 v with _ | n <;>
              simp [he, hd, hi, hr, hp,
                show ¬("retry".toList : Str) = "id".toList from by decide]
          · simp at he hd hi hr
            simp [he, hd, hi, hr]

theorem parse_retry_eq (sess : Session) (line : Str) (ev : Event) :
    ((parse_event_line sess line ev).1).retry =
      (if ¬stripNewline line = []
          ∧ (fieldValue (stripNewline line)).1 = "retry".toList then
        (parseU64 ((fieldValue (stripNewline line)).2)).getD sess.retry
      else sess.retry) := by
  rcases hfv : fieldValue (stripNewline line) with ⟨f, v⟩
  by_cases h0 : stripNewline line = []
  · simp [parse_event_line, h0]
  · simp only [parse_event_line, hfv, h0, if_neg, not_false_iff, true_and]
    by_cases he : f = "event".toList
    · simp [he, show ¬("event".toList : Str) = "retry".toList from by decide]
    · by_cases hd : f = "data".toList
      · simp [he, hd, show ¬("data".toList : Str) = "retry".toList from by decide]
      · by_cases hi : f = "id".toList
        · simp [he, hd, hi, show ¬("id".toList : Str) = "retry".toList from by decide]
        · by_cases hr : f = "retry".toList
          · rcases hp : parseU64 v with _ | n <;> simp [he, hd, hi, hr, hp]
          · simp at he hd hi hr
            simp [he, hd, hi, hr]

example : parse_event_line ⟨none, DEFAULT_RETRY⟩ "retry: 70\n".toList Event.new
    = (⟨none, 70⟩, Event.new, ParseResult.Next) := by decide

example : parse_event_line ⟨none, DEFAULT_RETRY⟩ "id: 9\n".toList Event.new
    = (⟨some "9".toList, DEFAULT_RETRY⟩, ⟨some "9".toList, none, []⟩,
       ParseResult.Next) := by decide

example : renderEvent ⟨some "foo".toList, none, "hello world".toList⟩
    = "id: foo\ndata: hello world\n".toList := by decide

example : (clientNext 1 ⟨some [ReadItem.err], none, DEFAULT_RETRY⟩ []).st.reader
    = some [] := by decide

/-! Helper lemmas unfolding one step of `clientNext`. -/

theorem clientNext_dispatch (fuel : Nat) (st : ClientSt) (world : List ConnResult)
    (r : List ReadItem) (sess' : Session) (e : Event) (rest : List ReadItem)
    (h : st.reader = some r)
    (hloop : readLoop ⟨st.last_event_id, st.retry⟩ Event.new r
      = (sess', LoopResult.dispatched e rest)) :
    clientNext (fuel + 1) st world
      = ⟨NextOutcome.ok e, ⟨some rest, sess'.last_event_id, sess'.retry⟩,
          world, [], []⟩ := by
  simp [clientNext, h, hloop]

theorem clientNext_ioErr (fuel : Nat) (st : ClientSt) (world : List ConnResult)
    (r : List ReadItem) (sess' : Session) (rest : List ReadItem)
    (h : st.reader = some r)
    (hloop : readLoop ⟨st.last_event_id, st.retry⟩ Event.new r
      = (sess', LoopResult.ioErr rest)) :
    clientNext (fuel + 1) st world
      = ⟨NextOutcome.error Error.io, ⟨some rest, sess'.last_event_id, sess'.retry⟩,
          world, [], []⟩ := by
  simp [clientNext, h, hloop]

theorem clientNext_eof (fuel : Nat) (st : ClientSt) (world : List ConnResult)
    (r : List ReadItem) (sess' : Session)
    (h : st.reader = some r)
    (hloop : readLoop ⟨st.last_event_id, st.retry⟩ Event.new r
      = (sess', LoopResult.eof)) :
    clientNext (fuel + 1) st world
      = (let res := clientNext fuel ⟨none, sess'.last_event_id, sess'.retry⟩ world
         ⟨res.outcome, res.st, res.world, sess'.retry :: res.sleeps, res.attempts⟩) := by
  simp [clientNext, h, hloop]

theorem clientNext_transport_fail (fuel : Nat) (st : ClientSt)
    (w' : List ConnResult) (h : st.reader = none) :
    clientNext (fuel + 1) st (ConnResult.transportError :: w')
      = ⟨NextOutcome.error Error.transport, st, w', [],
          [next_request_headers st.last_event_id]⟩ := by
  simp [clientNext, h]

theorem clientNext_http_fail (fuel : Nat) (st : ClientSt) (s : Nat)
    (body : List ReadItem) (w' : List ConnResult)
    (h : st.reader = none) (hs : is_success s = false) :
    clientNext (fuel + 1) st (ConnResult.response s body :: w')
      = ⟨NextOutcome.error (Error.http s), st, w', [],
          [next_request_headers st.last_event_id]⟩ := by
  simp [clientNext, h, hs]

theorem clientNext_connect_ok (fuel : Nat) (st : ClientSt) (s : Nat)
    (body : List ReadItem) (w' : List ConnResult)
    (h : st.reader = none) (hs : is_success s = true) :
    clientNext (fuel + 1) st (ConnResult.response s body :: w')
      = (let res := clientNext (fuel + 1) { st with reader := some body } w'
         ⟨res.outcome, res.st, res.world, res.sleeps,
          next_request_headers st.last_event_id :: res.attempts⟩) := by
  rcases hr : readLoop ⟨st.last_event_id, st.retry⟩ Event.new body with ⟨sess, lr⟩
  cases lr <;> simp [clientNext, h, hs, hr]

/-! Claim theorems. -/

/-- C1 (amended): if a read fails while reading from the open stream,
`next` returns the I/O error immediately with no sleep, but the stream
handle is left in place (it is not set to `None`), so the next call keeps
reading from the same stream instead of attempting a fresh connection. -/
theorem io_error_kept_stream (fuel : Nat) (st : ClientSt) (world : List ConnResult)
    (r : List ReadItem) (sess' : Session) (rest : List ReadItem)
    (h : st.reader = some r)
    (hloop : readLoop ⟨st.last_event_id, st.retry⟩ Event.new r
      = (sess', LoopResult.ioErr rest)) :
    clientNext (fuel + 1) st world
      = ⟨NextOutcome.error Error.io, ⟨some rest, sess'.last_event_id, sess'.retry⟩,
          world, [], []⟩
    ∧ (clientNext (fuel + 1) st world).st.reader ≠ none := by
  have he := clientNext_ioErr fuel st world r sess' rest h hloop
  refine ⟨he, ?_⟩
  rw [he]
  simp

/-- C1 counterexample: on a stream whose first read fails, `next` returns
the I/O error with no sleep, but the stream handle remains `some` — it is
not discarded as the claim states. -/
theorem io_error_reader_not_discarded :
    (clientNext 1 ⟨some [ReadItem.err], none, DEFAULT_RETRY⟩ []).outcome
        = NextOutcome.error Error.io
    ∧ (clientNext 1 ⟨some [ReadItem.err], none, DEFAULT_RETRY⟩ []).sleeps = []
    ∧ (clientNext 1 ⟨some [ReadItem.err], none, DEFAULT_RETRY⟩ []).st.reader
        = some []
    ∧ ¬(clientNext 1 ⟨some [ReadItem.err], none, DEFAULT_RETRY⟩ []).st.reader
        = none := by
  decide

/-- Witness for the amended C1 theorem at a concrete erroring stream. -/
theorem io_error_kept_stream_witness :
    (clientNext 1 ⟨some [ReadItem.err], none, DEFAULT_RETRY⟩ []
      = ⟨NextOutcome.error Error.io, ⟨some [], none, DEFAULT_RETRY⟩, [], [], []⟩)
    ∧ (clientNext 1 ⟨some [ReadItem.err], none, DEFAULT_RETRY⟩ []).st.reader ≠ none :=
  io_error_kept_stream 0 ⟨some [ReadItem.err], none, DEFAULT_RETRY⟩ []
    [ReadItem.err] ⟨none, DEFAULT_RETRY⟩ [] rfl (by decide)

/-- C2: a clean end of stream clears the open-stream handle, sleeps for
the session's current retry interval, and recurses into a fresh
connection attempt (first conjunct); and no other path of `next` sleeps:
not a dispatch, not a read error, not a transport failure, not a
non-success status (remaining conjuncts). -/
theorem eof_sleep_reconnect :
    (∀ (fuel : Nat) (st : ClientSt) (world : List ConnResult)
        (r : List ReadItem) (sess' : Session), st.reader = some r →
      readLoop ⟨st.last_event_id, st.retry⟩ Event.new r = (sess', LoopResult.eof) →
      clientNext (fuel + 1) st world
        = (let res := clientNext fuel ⟨none, sess'.last_event_id, sess'.retry⟩ world
           ⟨res.outcome, res.st, res.world, sess'.retry :: res.sleeps, res.attempts⟩))
    ∧ (∀ (fuel : Nat) (st : ClientSt) (world : List ConnResult)
        (r : List ReadItem) (sess' : Session) (e : Event) (rest : List ReadItem),
        st.reader = some r →
        readLoop ⟨st.last_event_id, st.retry⟩ Event.new r
          = (sess', LoopResult.dispatched e rest) →
        (clientNext (fuel + 1) st world).sleeps = [])
    ∧ (∀ (fuel : Nat) (st : ClientSt) (world : List ConnResult)
        (r : List ReadItem) (sess' : Session) (rest : List ReadItem),
        st.reader = some r →
        readLoop ⟨st.last_event_id, st.retry⟩ Event.new r
          = (sess', LoopResult.ioErr rest) →
        (clientNext (fuel + 1) st world).sleeps = [])
    ∧ (∀ (fuel : Nat) (st : ClientSt) (w' : List ConnResult), st.reader = none →
        (clientNext (fuel + 1) st (ConnResult.transportError :: w')).sleeps = [])
    ∧ (∀ (fuel : Nat) (st : ClientSt) (s : Nat) (body : List ReadItem)
        (w' : List ConnResult), st.reader = none → is_success s = false →
        (clientNext (fuel + 1) st (ConnResult.response s body :: w')).sleeps = []) := by
  refine ⟨?_, ?_, ?_, ?_, ?_⟩
  · intro fuel st world r sess' h hloop
    exact clientNext_eof fuel st world r sess' h hloop
  · intro fuel st world r sess' e rest h hloop
    rw [clientNext_dispatch fuel st world r sess' e rest h hloop]
  · intro fuel st world r sess' rest h hloop
    rw [clientNext_ioErr fuel st world r sess' rest h hloop]
  · intro fuel st w' h
    rw [clientNext_transport_fail fuel st w' h]
  · intro fuel st s body w' h hs
    rw [clientNext_http_fail fuel st s body w' h hs]

/-- Witness for C2 at a concrete immediately-exhausted stream. -/
theorem eof_sleep_reconnect_witness :
    clientNext 1 ⟨some [], none, DEFAULT_RETRY⟩ []
      = (let res := clientNext 0 ⟨none, none, DEFAULT_RETRY⟩ []
         ⟨res.outcome, res.st, res.world, DEFAULT_RETRY :: res.sleeps, res.attempts⟩) :=
  eof_sleep_reconnect.1 0 ⟨some [], none, DEFAULT_RETRY⟩ [] []
    ⟨none, DEFAULT_RETRY⟩ rfl (by decide)

/-- C3: `last_event_id` changes only on a line whose field name is `id`,
in which case it becomes the line's value (first conjunct); the request
headers of a connection attempt carry a `Last-Event-ID` header with value
`v` exactly when `last_event_id` is `some v`, and no header when it is
`none` (second and third conjuncts); and after a clean end of stream with
`last_event_id = some v`, the next connection attempt made by the
reconnect recursion presents that value in its headers (last conjunct). -/
theorem last_event_id_invariant :
    (∀ (sess : Session) (line : Str) (ev : Event),
      ((parse_event_line sess line ev).1).last_event_id =
        (if ¬stripNewline line = []
            ∧ (fieldValue (stripNewline line)).1 = "id".toList then
          some ((fieldValue (stripNewline line)).2)
        else sess.last_event_id))
    ∧ (∀ (lid : Option Str) (v : Str),
        ((lastEventIDHeader, v) ∈ next_request_headers lid ↔ lid = some v))
    ∧ next_request_headers none = []
    ∧ (∀ (fuel : Nat) (v : Str) (retr s : Nat) (body : List ReadItem)
        (w' : List ConnResult),
        (clientNext (fuel + 1 + 1) ⟨some [], some v, retr⟩
            (ConnResult.response s body :: w')).attempts.head?
          = some [(lastEventIDHeader, v)]) := by
  refine ⟨parse_last_event_id_eq, ?_, rfl, ?_⟩
  · intro lid v
    cases lid <;> simp [next_request_headers, eq_comm]
  · intro fuel v retr s body w'
    rw [clientNext_eof (fuel + 1) ⟨some [], some v, retr⟩
      (ConnResult.response s body :: w') [] ⟨some v, retr⟩ rfl rfl]
    by_cases hs : is_success s = true
    · rw [clientNext_connect_ok fuel ⟨none, some v, retr⟩ s body w' rfl hs]
      simp [next_request_headers]
    · have hs' : is_success s = false := by simpa using hs
      rw [clientNext_http_fail fuel ⟨none, some v, retr⟩ s body w' rfl hs']
      simp [next_request_headers]

/-- C4: the session's retry interval after a parsed line equals the
line's value as a parsed integer when the line is non-blank and its field
name is `retry` and the value parses (with the old value as fallback when
the parse fails), and is unchanged on every other line. -/
theorem retry_update_only_by_retry_field (sess : Session) (line : Str) (ev : Event) :
    ((parse_event_line sess line ev).1).retry =
      (if ¬stripNewline line = []
          ∧ (fieldValue (stripNewline line)).1 = "retry".toList then
        (parseU64 ((fieldValue (stripNewline line)).2)).getD sess.retry
      else sess.retry) :=
  parse_retry_eq sess line ev

/-- C5: with no open stream, a non-success response status is returned at
once as an HTTP-status error, with no sleep, no further connection
attempt, and the client state unchanged (first conjunct); a success
status makes the response body the open stream, and `next` proceeds
exactly as it would with that stream already open, recording the one
connection attempt (second conjunct). -/
theorem no_stream_connect_behavior :
    (∀ (fuel : Nat) (st : ClientSt) (s : Nat) (body : List ReadItem)
        (w' : List ConnResult), st.reader = none → is_success s = false →
      clientNext (fuel + 1) st (ConnResult.response s body :: w')
        = ⟨NextOutcome.error (Error.http s), st, w', [],
            [next_request_headers st.last_event_id]⟩)
    ∧ (∀ (fuel : Nat) (st : ClientSt) (s : Nat) (body : List ReadItem)
        (w' : List ConnResult), st.reader = none → is_success s = true →
      clientNext (fuel + 1) st (ConnResult.response s body :: w')
        = (let res := clientNext (fuel + 1) { st with reader := some body } w'
           ⟨res.outcome, res.st, res.world, res.sleeps,
            next_request_headers st.last_event_id :: res.attempts⟩)) := by
  refine ⟨?_, ?_⟩
  · intro fuel st s body w' h hs
    exact clientNext_http_fail fuel st s body w' h hs
  · intro fuel st s body w' h hs
    exact clientNext_connect_ok fuel st s body w' h hs

/-- Witness for C5 at a concrete 404 response and a concrete 200 response. -/
theorem no_stream_connect_behavior_witness :
    (clientNext 1 ⟨none, none, DEFAULT_RETRY⟩ [ConnResult.response 404 []]
      = ⟨NextOutcome.error (Error.http 404), ⟨none, none, DEFAULT_RETRY⟩, [], [],
          [next_request_headers none]⟩)
    ∧ (clientNext 1 ⟨none, none, DEFAULT_RETRY⟩ [ConnResult.response 200 []]
      = (let res := clientNext 1 ⟨some [], none, DEFAULT_RETRY⟩ []
         ⟨res.outcome, res.st, res.world, res.sleeps,
          next_request_headers none :: res.attempts⟩)) :=
  ⟨no_stream_connect_behavior.1 0 ⟨none, none, DEFAULT_RETRY⟩ 404 [] [] rfl (by decide),
   no_stream_connect_behavior.2 0 ⟨none, none, DEFAULT_RETRY⟩ 200 [] [] rfl (by decide)⟩

/-- C6: for any sequence of `data:` field lines followed by a blank line,
fed to the parser starting from an empty event, the dispatched event's
data is the concatenation of each line's value with a newline appended,
in arrival order; the session fields are untouched. -/
theorem data_lines_dispatch_concat (vs : List Str) (sess : Session) :
    readLoop sess Event.new
      ((vs.map (fun v => ReadItem.line ("data: ".toList ++ v ++ ['\n'])))
        ++ [ReadItem.line ['\n']])
      = (sess, LoopResult.dispatched
          ⟨none, none, (vs.map (fun v => v ++ ['\n'])).flatten⟩ []) := by
  have h := readLoop_data_lines vs sess Event.new
  simpa [Event.new] using h

/-- C7: for a line whose first colon separates `f` from `v`, the field
name is `f` and the value is `v` with at most one leading space removed;
a line with no colon is a field name equal to the whole line with an
empty value. -/
theorem field_split_first_colon :
    (∀ f v : Str, ':' ∉ f →
      fieldValue (f ++ ':' :: v) = (f, if v.head? = some ' ' then v.tail else v))
    ∧ (∀ l : Str, ':' ∉ l → fieldValue l = (l, [])) := by
  constructor
  · intro f v h
    simp [fieldValue, splitAtColon_first f v h, dropLeadingSpace]
  · intro l h
    simp [fieldValue, splitAtColon_of_no_colon l h]

/-- Witness for C7 at a concrete line with a colon and one without. -/
theorem field_split_first_colon_witness :
    (fieldValue ("retry".toList ++ ':' :: " 70".toList)
      = ("retry".toList,
         if (" 70".toList : Str).head? = some ' ' then (" 70".toList : Str).tail
         else " 70".toList))
    ∧ fieldValue "nocolonhere".toList = ("nocolonhere".toList, []) :=
  ⟨field_split_first_colon.1 "retry".toList " 70".toList (by decide),
   field_split_first_colon.2 "nocolonhere".toList (by decide)⟩

/-- C8: the parser strips exactly one trailing newline when present and
strips nothing otherwise; it dispatches exactly when the stripped line is
empty and continues in every other case; and a blank line with no
preceding field lines dispatches the empty event. -/
theorem dispatch_iff_blank :
    (∀ xs : Str, stripNewline (xs ++ ['\n']) = xs)
    ∧ (∀ xs : Str, xs.getLast? ≠ some '\n' → stripNewline xs = xs)
    ∧ (∀ (sess : Session) (line : Str) (ev : Event),
        ((parse_event_line sess line ev).2.2 = ParseResult.Dispatch
          ↔ stripNewline line = []))
    ∧ (∀ (sess : Session) (line : Str) (ev : Event),
        ((parse_event_line sess line ev).2.2 = ParseResult.Next
          ↔ ¬stripNewline line = []))
    ∧ (∀ sess : Session, readLoop sess Event.new [ReadItem.line ['\n']]
        = (sess, LoopResult.dispatched ⟨none, none, []⟩ [])) := by
  refine ⟨stripNewline_concat, stripNewline_keep, ?_, ?_, ?_⟩
  · intro sess line ev
    by_cases h : stripNewline line = [] <;> simp [parse_event_line, h]
  · intro sess line ev
    by_cases h : stripNewline line = [] <;> simp [parse_event_line, h]
  · intro sess
    simp [readLoop, parse_event_line, stripNewline, Event.new]

/-- Witness for C8 at concrete lines. -/
theorem dispatch_iff_blank_witness :
    stripNewline "ab".toList = "ab".toList :=
  dispatch_iff_blank.2.1 "ab".toList (by decide)

/-- C9: rendering the four concrete events of the claim produces exactly
the four wire strings of the claim. -/
theorem render_event_examples :
    renderEvent ⟨some "foo".toList, none, "hello world".toList⟩
        = "id: foo\ndata: hello world\n".toList
    ∧ renderEvent ⟨none, some "bar".toList, "hello world".toList⟩
        = "event: bar\ndata: hello world\n".toList
    ∧ renderEvent ⟨none, none, "hello\nworld".toList⟩
        = "data: hello\ndata: world\n".toList
    ∧ renderEvent ⟨none, none, "hello\n\nworld".toList⟩
        = "data: hello\ndata: \ndata: world\n".toList := by
  decide

/-- C10: for any stream made of non-blank lines only (so it reaches end
of stream without a terminating blank line), the call behaves exactly as
a reconnect from the fresh no-stream state whose session fields are those
left by parsing the lines: the partially accumulated event is discarded —
the result does not depend on it — while the `last_event_id` and retry
updates the lines made persist into the reconnect state, and the sleep
uses the updated retry value (first conjunct); and every connection
attempt made from a no-stream state presents headers built from the
persisted `last_event_id` (second conjunct). -/
theorem partial_event_side_effects_persist :
    (∀ (ls : List Str) (fuel : Nat) (st : ClientSt) (world : List ConnResult),
      (∀ l ∈ ls, ¬stripNewline l = []) →
      st.reader = some (ls.map ReadItem.line) →
      clientNext (fuel + 1) st world
        = (let sess' := (parseLinesSession ⟨st.last_event_id, st.retry⟩ Event.new ls).1
           let res := clientNext fuel ⟨none, sess'.last_event_id, sess'.retry⟩ world
           ⟨res.outcome, res.st, res.world, sess'.retry :: res.sleeps, res.attempts⟩))
    ∧ (∀ (fuel : Nat) (st : ClientSt) (c : ConnResult) (w' : List ConnResult),
        st.reader = none →
        (clientNext (fuel + 1) st (c :: w')).attempts.head?
          = some (next_request_headers st.last_event_id)) := by
  constructor
  · intro ls fuel st world hnb hrd
    have hr := readLoop_all_nonblank ls ⟨st.last_event_id, st.retry⟩ Event.new hnb
    exact clientNext_eof fuel st world (ls.map ReadItem.line)
      (parseLinesSession ⟨st.last_event_id, st.retry⟩ Event.new ls).1 hrd hr
  · intro fuel st c w' h
    cases c with
    | transportError =>
      rw [clientNext_transport_fail fuel st w' h]
      simp
    | response s body =>
      by_cases hs : is_success s = true
      · rw [clientNext_connect_ok fuel st s body w' h hs]
        simp
      · have hs' : is_success s = false := by simpa using hs
        rw [clientNext_http_fail fuel st s body w' h hs']
        simp

/-- Witness for C10 at a concrete stream holding an `id:` line, a
`retry:` line and a `data:` line with no terminating blank line: the
partial event vanishes while the parsed id and retry value carry into
the reconnect state and the sleep. -/
theorem partial_event_side_effects_persist_witness :
    (clientNext 1
      ⟨some [ReadItem.line "id: 42\n".toList, ReadItem.line "retry: 7\n".toList,
             ReadItem.line "data: x\n".toList], none, DEFAULT_RETRY⟩ []
      = (let res := clientNext 0 ⟨none, some "42".toList, 7⟩ []
         ⟨res.outcome, res.st, res.world, 7 :: res.sleeps, res.attempts⟩))
    ∧ (clientNext 1 ⟨none, some "42".toList, 7⟩ [ConnResult.response 200 []]).attempts.head?
        = some (next_request_headers (some "42".toList)) :=
  ⟨partial_event_side_effects_persist.1
      ["id: 42\n".toList, "retry: 7\n".toList, "data: x\n".toList] 0
      ⟨some [ReadItem.line "id: 42\n".toList, ReadItem.line "retry: 7\n".toList,
             ReadItem.line "data: x\n".toList], none, DEFAULT_RETRY⟩ []
      (by decide) rfl,
   partial_event_side_effects_persist.2 0 ⟨none, some "42".toList, 7⟩
      (ConnResult.response 200 []) [] rfl⟩

end EventSource
